import Mathlib

/-!
Verification of the DesktopMate controller (`src/main.py`) against its
natural-language specification.  The Win32 / psutil environment is embedded
shallowly: the process table, window list and the outcome of each OS call are
explicit parameters, and each Python method of `DesktopMateController` becomes
a Lean function over them, returning its boolean result together with the
trace of externally visible effects it performed.
-/

namespace DesktopMate

/-! ## Strings and case-insensitive name matching

Python strings are modelled as `List Char`; `str.lower()` is `List.map
Char.toLower`, and the `in` substring test is an explicit infix search. -/

/-- `s.lower()` of Python, on a char-list string. -/
def pyLower (s : List Char) : List Char := s.map Char.toLower

/-- `self.process_name` (line 136 of the source). -/
def process_name : List Char := "DesktopMate.exe".toList

/-- The comparison `name.lower() == self.process_name.lower()` performed (with
`target = process_name`) at lines 187, 229 and 335 of the source. -/
def nameMatches (target name : List Char) : Bool :=
  pyLower name == pyLower target

/-- `needle` occurs as a contiguous substring of `hay` (the Python
`needle in hay` test, line 249). -/
def containsSub (needle : List Char) : List Char → Bool
  | [] => needle.isEmpty
  | c :: rest => (needle.isPrefixOf (c :: rest)) || containsSub needle rest

/-- Spec-side reading of "equals the target executable name up to letter
case": same length, and corresponding characters agree after lowercasing. -/
def EqUpToCase (a b : List Char) : Prop :=
  List.Forall₂ (fun c d => Char.toLower c = Char.toLower d) a b

/-! ## Process table entries

An entry of one `psutil.process_iter` listing.  A process can disappear
between listing and inspection; reading its name then raises
`psutil.NoSuchProcess`, which every loop of the source catches and ignores. -/

/-- One row of a process-table scan: inspectable with a name, or vanished
(raises on inspection). -/
inductive ProcEntry
  | ok (pid : Nat) (name : List Char)
  | gone (pid : Nat)
deriving DecidableEq, Repr

/-- The guarded test `proc.info['name'].lower() == self.process_name.lower()`
inside a `try/except (NoSuchProcess, AccessDenied)` block: a vanished process
never matches (the exception is swallowed). -/
def entryMatches (target : List Char) : ProcEntry → Bool
  | .ok _ name => nameMatches target name
  | .gone _ => false

end DesktopMate

namespace DesktopMate

/-! ## `find_window` (source lines 222-257) -/

/-- A top-level window as seen by the `EnumWindows` callback. -/
structure Win where
  hwnd : Nat
  visible : Bool
  pid : Nat
  className : List Char
  title : List Char
deriving DecidableEq, Repr

/-- A window admitted by the callback: handle, class name, title
(the tuple appended to `windows` at line 233). -/
structure Cand where
  hwnd : Nat
  className : List Char
  title : List Char
deriving DecidableEq, Repr

/-- The `EnumWindows` callback (lines 224-236): keep a window iff it is
visible, its owning pid still resolves to a process (`procName` returns
`none` when `psutil.Process(pid)` raises, which the callback swallows), and
that process name matches the target case-insensitively. -/
def candidates (wins : List Win) (procName : Nat → Option (List Char))
    (target : List Char) : List Cand :=
  wins.filterMap fun w =>
    if w.visible then
      match procName w.pid with
      | some n =>
          if nameMatches target n then some ⟨w.hwnd, w.className, w.title⟩
          else none
      | none => none
    else none

/-- The class-name marker preferred among multiple candidates (line 249). -/
def unityMarker : List Char := "Unity".toList

/-- Selection among admitted candidates (lines 241-257): none if empty;
if more than one, the first whose class name contains `"Unity"`, else the
first candidate; if exactly one, that one. -/
def selectWindow (ws : List Cand) : Option Nat :=
  match ws with
  | [] => none
  | first :: rest =>
      if rest.length + 1 > 1 then
        match ws.find? (fun c => containsSub unityMarker c.className) with
        | some c => some c.hwnd
        | none => some first.hwnd
      else some first.hwnd

/-- `find_window` (lines 222-257): enumerate, filter, select.  Returns the
handle stored into `self.hwnd`, or `none` when the method returns `False`. -/
def find_window (wins : List Win) (procName : Nat → Option (List Char))
    (target : List Char) : Option Nat :=
  selectWindow (candidates wins procName target)

end DesktopMate

namespace DesktopMate

/-! ## `modify_window` and `set_parent_to_desktop` (source lines 259-321)

Window handles are `Nat`, with `0` for Python-falsy "no handle" (`None` or a
null handle).  `WinEnv` fixes the outcome of every Win32 call the two methods
make: the value each query returns and whether each call raises.  A raising
call performs no effect; a raised exception aborts the enclosing `try` block
at that point, and the source's `except` converts it to a `False` return. -/

/-- Extended-style bit constants of `win32con` used at lines 279-282. -/
def WS_EX_APPWINDOW : Nat := 0x40000

/-- `win32con.WS_EX_TOOLWINDOW`. -/
def WS_EX_TOOLWINDOW : Nat := 0x80

/-- `win32con.WS_EX_NOACTIVATE`. -/
def WS_EX_NOACTIVATE : Nat := 0x8000000

/-- `ShowWindow` command constants: `SW_SHOWNOACTIVATE`, `SW_SHOW`,
`SW_RESTORE`. -/
def SW_SHOWNOACTIVATE : Nat := 4

/-- `win32con.SW_SHOW`. -/
def SW_SHOW : Nat := 5

/-- `win32con.SW_RESTORE`. -/
def SW_RESTORE : Nat := 9

/-- A 32-bit extended-style value sits below `2 ^ 32`; Python's
`style & ~WS_EX_APPWINDOW` on such a value is masking with the 32-bit
complement of the constant. -/
def exStyleComplementAPPWINDOW : Nat := 0xFFFFFFFF ^^^ WS_EX_APPWINDOW

/-- The new style computed at lines 279-282:
`(style & ~WS_EX_APPWINDOW) | WS_EX_TOOLWINDOW | WS_EX_NOACTIVATE`. -/
def newExStyle (style : Nat) : Nat :=
  ((style &&& exStyleComplementAPPWINDOW) ||| WS_EX_TOOLWINDOW) ||| WS_EX_NOACTIVATE

/-- Outcomes of the Win32 calls `modify_window` / `set_parent_to_desktop`
perform: query results and, per call, whether it raises. -/
structure WinEnv where
  isIconicRaises : Bool
  isIconic : Bool
  showRestoreRaises : Bool
  showShowRaises : Bool
  getLongRaises : Bool
  exStyle : Nat
  setLongRaises : Bool
  showNoActivateRaises : Bool
  progmanHwnd : Nat
  workerwHwnd : Nat
  findProgmanRaises : Bool
  findWorkerRaises : Bool
  setParentRaises : Bool
deriving DecidableEq, Repr

/-- Externally visible window-system effects of the two methods. -/
inductive WinEv
  | showWindow (cmd : Nat)
  | setExStyle (style : Nat)
  | setParent (parent : Nat)
deriving DecidableEq, Repr

/-- The desktop container handle after the two `FindWindow` lookups of
lines 305-309: `Progman` if truthy, else the `WorkerW` result. -/
def desktopContainer (env : WinEnv) : Nat :=
  if env.progmanHwnd == 0 then env.workerwHwnd else env.progmanHwnd

/-- `set_parent_to_desktop` (lines 301-321): find `Progman`, else `WorkerW`;
if a desktop container and the handle are both truthy, `SetParent`; every
exception is caught in its own `try` and becomes a `False` return. -/
def set_parent_to_desktop (h : Nat) (env : WinEnv) : Bool × List WinEv :=
  if env.findProgmanRaises then (false, [])
  else if env.progmanHwnd == 0 && env.findWorkerRaises then (false, [])
  else if desktopContainer env != 0 && h != 0 then
    if env.setParentRaises then (false, [])
    else (true, [WinEv.setParent (desktopContainer env)])
  else (false, [])

/-- `modify_window` (lines 259-299): bail out on a falsy handle; otherwise
restore if minimized, show, read the extended style, write `newExStyle` back,
attempt desktop reparenting (result ignored), re-show without activation.
Any exception in the `try` block yields `False`; the trace keeps the effects
performed before the raise. -/
def modify_window (h : Nat) (env : WinEnv) : Bool × List WinEv :=
  if h == 0 then (false, [])
  else if env.isIconicRaises then (false, [])
  else if env.isIconic && env.showRestoreRaises then (false, [])
  else
    let restoreEvs : List WinEv := if env.isIconic then [WinEv.showWindow SW_RESTORE] else []
    if env.showShowRaises then (false, restoreEvs)
    else if env.getLongRaises then (false, restoreEvs ++ [WinEv.showWindow SW_SHOW])
    else if env.setLongRaises then (false, restoreEvs ++ [WinEv.showWindow SW_SHOW])
    else
      let styled := restoreEvs ++
        [WinEv.showWindow SW_SHOW, WinEv.setExStyle (newExStyle env.exStyle)]
      let reparented := styled ++ (set_parent_to_desktop h env).2
      if env.showNoActivateRaises then (false, reparented)
      else (true, reparented ++ [WinEv.showWindow SW_SHOWNOACTIVATE])

/-- The disjunction of conditions under which the `try` block of
`modify_window` raises (the reparenting step never contributes: its
exceptions are swallowed inside `set_parent_to_desktop`). -/
def styleMutationRaises (env : WinEnv) : Bool :=
  env.isIconicRaises || (env.isIconic && env.showRestoreRaises) ||
    env.showShowRaises || env.getLongRaises || env.setLongRaises ||
    env.showNoActivateRaises

end DesktopMate

namespace DesktopMate

/-! ## `find_and_modify_window` (source lines 199-220)

The loop is driven by the outcomes of successive `find_window` and
`modify_window` calls, supplied as oracles indexed by the iteration number
(each iteration sees a fresh enumeration of the window system). -/

/-- `max_retries` (line 205). -/
def max_retries : Nat := 3

/-- Events of one retry loop run: a `find_window` call with its outcome, a
`modify_window` call with its outcome, and the `time.sleep(2)` backoff of
line 218. -/
inductive FEv
  | locate (ok : Bool)
  | reconcile (ok : Bool)
  | backoff
deriving DecidableEq, Repr

/-- Body of the `while not success and retry_count < max_retries` loop
(lines 208-218), with `fuel = max_retries - retry_count` and `i` the
iteration index.  A successful `find_window` is followed by `modify_window`;
on failure of the iteration the retry counter advances after the backoff
sleep. -/
def famAux (locOk recOk : Nat → Bool) : Nat → Nat → Bool × List FEv
  | _, 0 => (false, [])
  | i, fuel + 1 =>
      if locOk i then
        if recOk i then (true, [FEv.locate true, FEv.reconcile true])
        else
          let next := famAux locOk recOk (i + 1) fuel
          (next.1, FEv.locate true :: FEv.reconcile false :: FEv.backoff :: next.2)
      else
        let next := famAux locOk recOk (i + 1) fuel
        (next.1, FEv.locate false :: FEv.backoff :: next.2)

/-- `find_and_modify_window` (lines 199-220). -/
def find_and_modify_window (locOk recOk : Nat → Bool) : Bool × List FEv :=
  famAux locOk recOk 0 max_retries

/-- Number of attempts recorded in a retry-loop trace (one `find_window`
call starts each attempt). -/
def attemptCount (t : List FEv) : Nat :=
  t.count (FEv.locate true) + t.count (FEv.locate false)

/-- Number of `modify_window` calls recorded in a retry-loop trace. -/
def reconcileCount (t : List FEv) : Nat :=
  t.count (FEv.reconcile true) + t.count (FEv.reconcile false)

end DesktopMate

namespace DesktopMate

/-! ## `wait_for_application` (source lines 177-197)

Polling runs on a 0.5 s grid; the 60 s timeout gives 120 polls.  The scan
the process table returns at poll `k` is the oracle `scans k`. -/

/-- Number of poll iterations inside the 60 s timeout window at one poll
per 0.5 s (lines 181, 195). -/
def wait_fuel : Nat := 120

/-- Sleeps of the waiter: the 0.5 s poll sleep (line 195) and the 10 s
settle sleep before returning true (line 191). -/
inductive WaitEv
  | poll
  | settle
deriving DecidableEq, Repr

/-- The `while time.time() - start_time < max_wait_time` loop (lines
184-195): scan, return `True` after the settle sleep on the first matching
entry, otherwise sleep 0.5 s and poll again; `False` once the window is
exhausted. -/
def waitAux (scans : Nat → List ProcEntry) (target : List Char) :
    Nat → Nat → Bool × List WaitEv
  | _, 0 => (false, [])
  | k, fuel + 1 =>
      if (scans k).any (entryMatches target) then (true, [WaitEv.settle])
      else
        let next := waitAux scans target (k + 1) fuel
        (next.1, WaitEv.poll :: next.2)

/-- `wait_for_application` (lines 177-197). -/
def wait_for_application (scans : Nat → List ProcEntry) : Bool × List WaitEv :=
  waitAux scans process_name 0 wait_fuel

end DesktopMate

namespace DesktopMate

/-! ## `monitor_process` (source lines 329-348) -/

/-- The supervisor state the monitor reads and writes: the `is_running`
flag, whether a tray icon object exists (`self.icon`), and whether
`icon.stop()` has been signalled. -/
structure SupState where
  is_running : Bool
  icon : Bool
  iconStopSignalled : Bool
deriving DecidableEq, Repr

/-- One iteration body of the monitor loop (lines 331-348), given the scan
of the process table it performs: with no matching process it clears
`is_running` and, if an icon exists, signals it to stop; otherwise the state
is untouched.  When `is_running` is already false the loop body does not
run. -/
def monitorStep (target : List Char) (scan : List ProcEntry) (st : SupState) :
    SupState :=
  if st.is_running then
    if scan.any (entryMatches target) then st
    else ⟨false, st.icon, st.iconStopSignalled || st.icon⟩
  else st

/-- A monitor run over a finite schedule of process-table scans, returning
the final state and the number of scans actually performed.  The `break` of
line 346 and the `while` guard of line 331 both end the run as soon as
`is_running` is false. -/
def monitorRun (target : List Char) (scans : List (List ProcEntry))
    (st : SupState) : SupState × Nat :=
  match scans with
  | [] => (st, 0)
  | s :: rest =>
      if st.is_running then
        if s.any (entryMatches target) then
          let next := monitorRun target rest st
          (next.1, next.2 + 1)
        else (⟨false, st.icon, st.iconStopSignalled || st.icon⟩, 1)
      else (st, 0)

end DesktopMate

namespace DesktopMate

/-! ## `start` (source lines 146-167) and `restart_application` (432-463) -/

/-- Phases of `start`, in program order: the Steam launch, the
`wait_for_application` gate with its outcome, the `find_and_modify_window`
configuration with its outcome, `start_monitoring`, and the blocking
`create_tray_icon` call. -/
inductive StartEv
  | launch
  | waitCheck (ok : Bool)
  | configure (ok : Bool)
  | monitorStart
  | trayRun
deriving DecidableEq, Repr

/-- `start` (lines 146-167), driven by the outcomes of its two gates: on a
`wait_for_application` failure it returns `False` at line 155; otherwise a
`find_and_modify_window` failure is only logged (line 159) and the method
continues into monitoring and the tray icon, returning `True`. -/
def start (waitOk configOk : Bool) : Bool × List StartEv :=
  if waitOk then
    (true, [StartEv.launch, StartEv.waitCheck true, StartEv.configure configOk,
      StartEv.monitorStart, StartEv.trayRun])
  else (false, [StartEv.launch, StartEv.waitCheck false])

/-- Effects of `restart_application`: the `WM_CLOSE` post, the fixed sleeps
(in tenths of a second: 20 = 2 s, 10 = 1 s), a `proc.kill()`, `icon.stop()`,
and the final `os.execl` self-replacement. -/
inductive REv
  | postClose
  | sleep (tenths : Nat)
  | kill (pid : Nat)
  | iconStop
  | execSelf
deriving DecidableEq, Repr

/-- The force-kill loop of lines 444-450: walk the process table, kill the
first entry whose name matches and `break`; an entry that vanished before
the kill raises `NoSuchProcess`, which the `except` swallows, and the walk
continues.  Returns the kill events and the surviving table. -/
def killFirstMatch (target : List Char) :
    List ProcEntry → List REv × List ProcEntry
  | [] => ([], [])
  | e :: rest =>
      match e with
      | .ok pid name =>
          if nameMatches target name then ([REv.kill pid], rest)
          else
            let next := killFirstMatch target rest
            (next.1, ProcEntry.ok pid name :: next.2)
      | .gone pid =>
          let next := killFirstMatch target rest
          (next.1, ProcEntry.gone pid :: next.2)

/-- `restart_application` (lines 432-463): post `WM_CLOSE` when the tracked
handle is still a valid window, sleep 2 s, run the force-kill loop, sleep
1 s, stop the tray icon, and replace the process image with `os.execl`
(discarding all in-memory state).  Returns the effect trace and the process
table left behind for the new instance. -/
def restart_application (hwndValid : Bool) (procs : List ProcEntry) :
    List REv × List ProcEntry :=
  let closeEvs : List REv := if hwndValid then [REv.postClose] else []
  let killed := killFirstMatch process_name procs
  (closeEvs ++ [REv.sleep 20] ++ killed.1 ++
    [REv.sleep 10, REv.iconStop, REv.execSelf], killed.2)

end DesktopMate

namespace DesktopMate

/-! ## Helper lemmas -/

/-- Lowercased char-lists agree exactly when the strings agree up to letter
case. -/
theorem pyLower_eq_iff (a b : List Char) :
    pyLower a = pyLower b ↔ EqUpToCase a b := by
  induction a generalizing b with
  | nil =>
      cases b with
      | nil => simp [pyLower, EqUpToCase]
      | cons d ds => simp [pyLower, EqUpToCase]
  | cons c cs ih =>
      cases b with
      | nil => simp [pyLower, EqUpToCase]
      | cons d ds =>
          simp only [pyLower, List.map_cons, List.cons.injEq, EqUpToCase,
            List.forall₂_cons]
          constructor
          · rintro ⟨h1, h2⟩
            exact ⟨h1, (ih ds).mp h2⟩
          · rintro ⟨h1, h2⟩
            exact ⟨h1, (ih ds).mpr h2⟩

end DesktopMate

namespace DesktopMate

/-! ## Claim theorems -/

/-- Claim C9: every process-name comparison of the program (the waiter and
monitor compare scan entries with `entryMatches`, the locator's ownership
filter compares with `nameMatches`) is case-insensitive and exact: a name
matches precisely when it equals the target executable name up to letter
case; in particular `"desktopmate.exe"` matches the target
`"DesktopMate.exe"` but `"DesktopMateUpdater.exe"` does not, and a vanished
process entry never matches. -/
theorem claim_C9 :
    (∀ target name, nameMatches target name = true ↔ EqUpToCase name target) ∧
    (∀ pid name, entryMatches process_name (ProcEntry.ok pid name) =
      nameMatches process_name name) ∧
    (∀ pid, entryMatches process_name (ProcEntry.gone pid) = false) ∧
    nameMatches process_name "desktopmate.exe".toList = true ∧
    nameMatches process_name "DesktopMateUpdater.exe".toList = false := by
  refine ⟨fun t n => ?_, fun _ _ => rfl, fun _ => rfl, by decide, by decide⟩
  rw [nameMatches, beq_iff_eq, pyLower_eq_iff]

/-- Claim C9 witness at the concrete names of the spec. -/
theorem claim_C9_witness :
    nameMatches process_name "desktopmate.exe".toList = true ∧
    nameMatches process_name "DesktopMateUpdater.exe".toList = false :=
  ⟨claim_C9.2.2.2.1, claim_C9.2.2.2.2⟩

/-- Claim C3: for each candidate set computed by the locator's filter over
one enumeration, `find_window` returns none on an empty set, the unique
candidate on a singleton, some candidate whose class name contains the
`"Unity"` marker whenever the set has more than one element and such a
candidate exists (for every enumeration order), and the first candidate in
enumeration order when more than one exist but none carries the marker. -/
theorem claim_C3 (wins : List Win) (pn : Nat → Option (List Char)) :
    (candidates wins pn process_name = [] →
      find_window wins pn process_name = none) ∧
    (∀ c, candidates wins pn process_name = [c] →
      find_window wins pn process_name = some c.hwnd) ∧
    ((candidates wins pn process_name).length > 1 →
      (∃ c ∈ candidates wins pn process_name,
        containsSub unityMarker c.className = true) →
      ∃ c ∈ candidates wins pn process_name,
        containsSub unityMarker c.className = true ∧
        find_window wins pn process_name = some c.hwnd) ∧
    ((candidates wins pn process_name).length > 1 →
      (∀ c ∈ candidates wins pn process_name,
        containsSub unityMarker c.className = false) →
      find_window wins pn process_name =
        (candidates wins pn process_name).head?.map Cand.hwnd) := by
  rw [find_window]
  generalize candidates wins pn process_name = ws
  refine ⟨fun h => ?_, fun c h => ?_, fun hlen hex => ?_, fun hlen hnone => ?_⟩
  · subst h; rfl
  · subst h; rfl
  · match ws, hlen with
    | first :: second :: rest, _ =>
        have hsome : ((first :: second :: rest).find?
            (fun c => containsSub unityMarker c.className)).isSome := by
          rw [List.find?_isSome]
          obtain ⟨c, hc, hcu⟩ := hex
          exact ⟨c, hc, hcu⟩
        obtain ⟨c, hc⟩ := Option.isSome_iff_exists.mp hsome
        refine ⟨c, List.mem_of_find?_eq_some hc, by simpa using List.find?_some hc, ?_⟩
        simp only [selectWindow, List.length_cons, hc]
        norm_num
  · match ws, hlen with
    | first :: second :: rest, _ =>
        have hnone' : ((first :: second :: rest).find?
            (fun c => containsSub unityMarker c.className)) = none := by
          rw [List.find?_eq_none]
          intro x hx
          simp [hnone x hx]
        simp only [selectWindow, List.length_cons, hnone']
        norm_num

/-- Claim C3 witness: a two-candidate enumeration where the second window's
class contains the marker is resolved to that window. -/
theorem claim_C3_witness :
    ∃ c ∈ candidates
        [⟨5, true, 11, "ApplicationFrameWindow".toList, []⟩,
          ⟨7, true, 11, "UnityWndClass".toList, []⟩]
        (fun p => if p = 11 then some "DesktopMate.exe".toList else none)
        process_name,
      containsSub unityMarker c.className = true ∧
      find_window
        [⟨5, true, 11, "ApplicationFrameWindow".toList, []⟩,
          ⟨7, true, 11, "UnityWndClass".toList, []⟩]
        (fun p => if p = 11 then some "DesktopMate.exe".toList else none)
        process_name = some c.hwnd :=
  (claim_C3 _ _).2.2.1 (by decide) (by decide)

end DesktopMate
namespace DesktopMate

/-! ## Style bitmask lemmas -/

/-- Bit 18 (the `WS_EX_APPWINDOW` position) of the reconciled style is
clear. -/
theorem newExStyle_testBit_18 (s : Nat) : (newExStyle s).testBit 18 = false := by
  have h1 : exStyleComplementAPPWINDOW.testBit 18 = false := by decide
  have h2 : WS_EX_TOOLWINDOW.testBit 18 = false := by decide
  have h3 : WS_EX_NOACTIVATE.testBit 18 = false := by decide
  simp [newExStyle, Nat.testBit_lor, Nat.testBit_land, h1, h2, h3]

/-- Bit 7 (the `WS_EX_TOOLWINDOW` position) of the reconciled style is
set. -/
theorem newExStyle_testBit_7 (s : Nat) : (newExStyle s).testBit 7 = true := by
  have h2 : WS_EX_TOOLWINDOW.testBit 7 = true := by decide
  simp [newExStyle, Nat.testBit_lor, h2]

/-- Bit 27 (the `WS_EX_NOACTIVATE` position) of the reconciled style is
set. -/
theorem newExStyle_testBit_27 (s : Nat) : (newExStyle s).testBit 27 = true := by
  have h3 : WS_EX_NOACTIVATE.testBit 27 = true := by decide
  simp [newExStyle, Nat.testBit_lor, h3]

/-- Masking the reconciled style with `WS_EX_APPWINDOW` yields zero. -/
theorem newExStyle_land_APPWINDOW (s : Nat) :
    newExStyle s &&& WS_EX_APPWINDOW = 0 := by
  apply Nat.eq_of_testBit_eq
  intro i
  rw [Nat.testBit_land]
  rcases eq_or_ne i 18 with rfl | hi
  · simp [newExStyle_testBit_18]
  · have hb : WS_EX_APPWINDOW.testBit i = false := by
      have he : WS_EX_APPWINDOW = 2 ^ 18 := by decide
      rw [he]
      exact Nat.testBit_two_pow_of_ne (Ne.symm hi)
    simp [hb, Nat.zero_testBit]

/-- Masking the reconciled style with `WS_EX_TOOLWINDOW` yields the whole
constant. -/
theorem newExStyle_land_TOOLWINDOW (s : Nat) :
    newExStyle s &&& WS_EX_TOOLWINDOW = WS_EX_TOOLWINDOW := by
  apply Nat.eq_of_testBit_eq
  intro i
  rw [Nat.testBit_land]
  rcases eq_or_ne i 7 with rfl | hi
  · simp [newExStyle_testBit_7]
  · have hb : WS_EX_TOOLWINDOW.testBit i = false := by
      have he : WS_EX_TOOLWINDOW = 2 ^ 7 := by decide
      rw [he]
      exact Nat.testBit_two_pow_of_ne (Ne.symm hi)
    simp [hb]

/-- Masking the reconciled style with `WS_EX_NOACTIVATE` yields the whole
constant. -/
theorem newExStyle_land_NOACTIVATE (s : Nat) :
    newExStyle s &&& WS_EX_NOACTIVATE = WS_EX_NOACTIVATE := by
  apply Nat.eq_of_testBit_eq
  intro i
  rw [Nat.testBit_land]
  rcases eq_or_ne i 27 with rfl | hi
  · simp [newExStyle_testBit_27]
  · have hb : WS_EX_NOACTIVATE.testBit i = false := by
      have he : WS_EX_NOACTIVATE = 2 ^ 27 := by decide
      rw [he]
      exact Nat.testBit_two_pow_of_ne (Ne.symm hi)
    simp [hb]

/-- The reparenting step never records a style write. -/
theorem set_parent_no_style (h : Nat) (env : WinEnv) :
    ∀ s, WinEv.setExStyle s ∉ (set_parent_to_desktop h env).2 := by
  intro s
  rw [set_parent_to_desktop]
  split
  · simp
  · split
    · simp
    · split
      · split
        · simp
        · simp
      · simp

/-- The boolean result of `modify_window`: true exactly on a truthy handle
with no exception in the `try` block. -/
theorem modify_window_result (h : Nat) (env : WinEnv) :
    (modify_window h env).1 = (h != 0 && !styleMutationRaises env) := by
  obtain ⟨r1, ic, r2, r3, r4, s, r5, r6, p, w, f1, f2, f3⟩ := env
  by_cases hh : h = 0
  · subst hh
    simp [modify_window]
  · have hb : (h == 0) = false := by simpa using hh
    cases r1 <;> cases ic <;> cases r2 <;> cases r3 <;> cases r4 <;>
      cases r5 <;> cases r6 <;>
      simp [modify_window, styleMutationRaises, hb, hh]

end DesktopMate

namespace DesktopMate

/-- Claim C2: on a valid (truthy) handle, when the calls up to the style
write go through, `modify_window` records exactly one style write, its value
is `newExStyle` of the style it read, and that bitmask has the
appears-in-taskbar bit `WS_EX_APPWINDOW` cleared and the `WS_EX_TOOLWINDOW`
and `WS_EX_NOACTIVATE` bits set — for every outcome of the desktop
reparenting step and of the final show call, which are unconstrained
here. -/
theorem claim_C2 (h : Nat) (env : WinEnv) (hh : h ≠ 0)
    (h1 : env.isIconicRaises = false) (h2 : env.showRestoreRaises = false)
    (h3 : env.showShowRaises = false) (h4 : env.getLongRaises = false)
    (h5 : env.setLongRaises = false) :
    WinEv.setExStyle (newExStyle env.exStyle) ∈ (modify_window h env).2 ∧
    (∀ s, WinEv.setExStyle s ∈ (modify_window h env).2 →
      s = newExStyle env.exStyle) ∧
    newExStyle env.exStyle &&& WS_EX_APPWINDOW = 0 ∧
    newExStyle env.exStyle &&& WS_EX_TOOLWINDOW = WS_EX_TOOLWINDOW ∧
    newExStyle env.exStyle &&& WS_EX_NOACTIVATE = WS_EX_NOACTIVATE := by
  have hb : (h == 0) = false := by simpa using hh
  have hsp := set_parent_no_style h env
  refine ⟨?_, ?_, newExStyle_land_APPWINDOW _, newExStyle_land_TOOLWINDOW _,
    newExStyle_land_NOACTIVATE _⟩
  · rw [modify_window]
    cases hic : env.isIconic <;> cases hna : env.showNoActivateRaises <;>
      simp [hb, h1, h2, h3, h4, h5, hic, hna]
  · intro s hs
    rw [modify_window] at hs
    cases hic : env.isIconic <;> cases hna : env.showNoActivateRaises <;>
      rw [hic] at hs <;>
      simp [hb, h1, h2, h3, h4, h5, hna, SW_RESTORE, SW_SHOW,
        SW_SHOWNOACTIVATE] at hs <;>
      rcases hs with hs | hs <;>
      first
      | exact hs
      | exact absurd hs (hsp s)

/-- Claim C2 witness: a concrete fault-free environment whose reparenting
step fails (no desktop container window exists). -/
theorem claim_C2_witness :
    WinEv.setExStyle (newExStyle 0x40000) ∈
      (modify_window 100
        ⟨false, false, false, false, false, 0x40000, false, false, 0, 0,
          false, false, false⟩).2 :=
  (claim_C2 100
    ⟨false, false, false, false, false, 0x40000, false, false, 0, 0,
      false, false, false⟩
    (by decide) rfl rfl rfl rfl rfl).1

/-- Claim C7: `modify_window` returns false exactly when the handle is
Python-falsy at entry or one of the OS calls of its `try` block raises; the
fields describing the reparenting step (container lookups, their failures,
and the `SetParent` outcome) never change the returned boolean, so a
reparenting failure alone never causes a false return, and every exception
is converted to the boolean rather than escaping. -/
theorem claim_C7 (h : Nat) (env : WinEnv) :
    ((modify_window h env).1 = false ↔
      h = 0 ∨ styleMutationRaises env = true) ∧
    (∀ (p w : Nat) (f1 f2 f3 : Bool),
      (modify_window h
        ⟨env.isIconicRaises, env.isIconic, env.showRestoreRaises,
          env.showShowRaises, env.getLongRaises, env.exStyle,
          env.setLongRaises, env.showNoActivateRaises, p, w, f1, f2,
          f3⟩).1 = (modify_window h env).1) := by
  constructor
  · rw [modify_window_result]
    by_cases hh : h = 0
    · subst hh
      simp
    · have hb : (h != 0) = true := by simpa using hh
      cases hm : styleMutationRaises env <;> simp [hb, hh, hm]
  · intro p w f1 f2 f3
    rw [modify_window_result, modify_window_result]
    rfl

/-- Claim C10: the reconciled style bitmask differs from the 32-bit style
that was read only at the three bit positions of `WS_EX_APPWINDOW` (bit 18,
cleared), `WS_EX_TOOLWINDOW` (bit 7, set) and `WS_EX_NOACTIVATE` (bit 27,
set); every other bit keeps its original value. -/
theorem claim_C10 (s : Nat) (hs : s < 2 ^ 32) :
    WS_EX_APPWINDOW = 2 ^ 18 ∧ WS_EX_TOOLWINDOW = 2 ^ 7 ∧
    WS_EX_NOACTIVATE = 2 ^ 27 ∧
    (newExStyle s).testBit 18 = false ∧
    (newExStyle s).testBit 7 = true ∧
    (newExStyle s).testBit 27 = true ∧
    (∀ i, i ≠ 18 → i ≠ 7 → i ≠ 27 →
      (newExStyle s).testBit i = s.testBit i) := by
  refine ⟨by decide, by decide, by decide, newExStyle_testBit_18 s,
    newExStyle_testBit_7 s, newExStyle_testBit_27 s, fun i h18 h7 h27 => ?_⟩
  by_cases hi : i < 32
  · have hmask : exStyleComplementAPPWINDOW.testBit i = true := by
      have hd : ∀ j, j < 32 → j ≠ 18 →
          exStyleComplementAPPWINDOW.testBit j = true := by decide
      exact hd i hi h18
    have ht : WS_EX_TOOLWINDOW.testBit i = false := by
      have hd : ∀ j, j < 32 → j ≠ 7 → WS_EX_TOOLWINDOW.testBit j = false := by
        decide
      exact hd i hi h7
    have hn : WS_EX_NOACTIVATE.testBit i = false := by
      have hd : ∀ j, j < 32 → j ≠ 27 → WS_EX_NOACTIVATE.testBit j = false := by
        decide
      exact hd i hi h27
    simp [newExStyle, Nat.testBit_lor, Nat.testBit_land, hmask, ht, hn]
  · push_neg at hi
    have hpow : (2 : Nat) ^ 32 ≤ 2 ^ i := Nat.pow_le_pow_right (by norm_num) hi
    have hsb : s.testBit i = false :=
      Nat.testBit_eq_false_of_lt (lt_of_lt_of_le hs hpow)
    have hmb : exStyleComplementAPPWINDOW.testBit i = false :=
      Nat.testBit_eq_false_of_lt
        (lt_of_lt_of_le (by decide : exStyleComplementAPPWINDOW < 2 ^ 32) hpow)
    have ht : WS_EX_TOOLWINDOW.testBit i = false :=
      Nat.testBit_eq_false_of_lt
        (lt_of_lt_of_le (by decide : WS_EX_TOOLWINDOW < 2 ^ 32) hpow)
    have hn : WS_EX_NOACTIVATE.testBit i = false :=
      Nat.testBit_eq_false_of_lt
        (lt_of_lt_of_le (by decide : WS_EX_NOACTIVATE < 2 ^ 32) hpow)
    simp [newExStyle, Nat.testBit_lor, Nat.testBit_land, hmb, ht, hn, hsb]

/-- Claim C10 witness at the concrete read style `0x40100`. -/
theorem claim_C10_witness :
    (newExStyle 0x40100).testBit 8 = (0x40100 : Nat).testBit 8 ∧
    (newExStyle 0x40100).testBit 18 = false :=
  ⟨(claim_C10 0x40100 (by decide)).2.2.2.2.2.2 8 (by decide) (by decide)
      (by decide),
    (claim_C10 0x40100 (by decide)).2.2.2.1⟩

end DesktopMate
namespace DesktopMate

/-! ## Retry-loop lemmas -/

/-- The retry loop makes at most `fuel` attempts. -/
theorem famAux_attempts_le (locOk recOk : Nat → Bool) :
    ∀ fuel i, attemptCount (famAux locOk recOk i fuel).2 ≤ fuel := by
  intro fuel
  induction fuel with
  | zero => intro i; simp [famAux, attemptCount]
  | succ n ih =>
      intro i
      by_cases hl : locOk i
      · by_cases hr : recOk i
        · simp [famAux, hl, hr, attemptCount, List.count_cons]
        · have := ih (i + 1)
          simp only [famAux, hl, hr, if_true, if_false, Bool.false_eq_true] at *
          simp only [attemptCount, List.count_cons] at *
          simp
          omega
      · have := ih (i + 1)
        simp only [famAux, hl, if_false, Bool.false_eq_true] at *
        simp only [attemptCount, List.count_cons] at *
        simp
        omega

/-- Each successful locate is followed by exactly one reconcile call, and
reconcile is never called otherwise. -/
theorem famAux_reconcile_count (locOk recOk : Nat → Bool) :
    ∀ fuel i, reconcileCount (famAux locOk recOk i fuel).2 =
      (famAux locOk recOk i fuel).2.count (FEv.locate true) := by
  intro fuel
  induction fuel with
  | zero => intro i; simp [famAux, reconcileCount]
  | succ n ih =>
      intro i
      by_cases hl : locOk i
      · by_cases hr : recOk i
        · simp [famAux, hl, hr, reconcileCount, List.count_cons]
        · have := ih (i + 1)
          simp only [famAux, hl, hr, if_true, if_false, Bool.false_eq_true] at *
          simp only [reconcileCount, List.count_cons] at *
          simp
          omega
      · have := ih (i + 1)
        simp only [famAux, hl, if_false, Bool.false_eq_true] at *
        simp only [reconcileCount, List.count_cons] at *
        simp
        omega

/-- The loop result is true exactly when some reconcile call succeeded. -/
theorem famAux_result_iff (locOk recOk : Nat → Bool) :
    ∀ fuel i, (famAux locOk recOk i fuel).1 = true ↔
      FEv.reconcile true ∈ (famAux locOk recOk i fuel).2 := by
  intro fuel
  induction fuel with
  | zero => intro i; simp [famAux]
  | succ n ih =>
      intro i
      by_cases hl : locOk i
      · by_cases hr : recOk i
        · simp [famAux, hl, hr]
        · have := ih (i + 1)
          simp only [famAux, hl, hr, if_true, if_false, Bool.false_eq_true] at *
          simpa using this
      · have := ih (i + 1)
        simp only [famAux, hl, if_false, Bool.false_eq_true] at *
        simpa using this

/-- Every attempt except a final successful one is followed by the fixed
backoff sleep. -/
theorem famAux_backoff_count (locOk recOk : Nat → Bool) :
    ∀ fuel i, (famAux locOk recOk i fuel).2.count FEv.backoff +
      (if (famAux locOk recOk i fuel).1 then 1 else 0) =
      attemptCount (famAux locOk recOk i fuel).2 := by
  intro fuel
  induction fuel with
  | zero => intro i; simp [famAux, attemptCount]
  | succ n ih =>
      intro i
      by_cases hl : locOk i
      · by_cases hr : recOk i
        · simp [famAux, hl, hr, attemptCount, List.count_cons]
        · have := ih (i + 1)
          simp only [famAux, hl, hr, if_true, if_false, Bool.false_eq_true] at *
          simp only [attemptCount, List.count_cons] at *
          simp at *
          omega
      · have := ih (i + 1)
        simp only [famAux, hl, if_false, Bool.false_eq_true] at *
        simp only [attemptCount, List.count_cons] at *
        simp at *
        omega

/-- On success, the successful reconcile event is the last event of the
trace and the unique success event: the loop stops immediately. -/
theorem famAux_stops_on_success (locOk recOk : Nat → Bool) :
    ∀ fuel i, (famAux locOk recOk i fuel).1 = true →
      ∃ pre, (famAux locOk recOk i fuel).2 = pre ++ [FEv.reconcile true] ∧
        FEv.reconcile true ∉ pre := by
  intro fuel
  induction fuel with
  | zero => intro i h; simp [famAux] at h
  | succ n ih =>
      intro i h
      by_cases hl : locOk i
      · by_cases hr : recOk i
        · refine ⟨[FEv.locate true], ?_, by simp⟩
          simp [famAux, hl, hr]
        · simp only [famAux, hl, hr, if_true, if_false, Bool.false_eq_true] at h ⊢
          obtain ⟨pre, hpre, hmem⟩ := ih (i + 1) h
          refine ⟨FEv.locate true :: FEv.reconcile false :: FEv.backoff :: pre,
            ?_, ?_⟩
          · simp [hpre]
          · simp [hmem]
      · simp only [famAux, hl, if_false, Bool.false_eq_true] at h ⊢
        obtain ⟨pre, hpre, hmem⟩ := ih (i + 1) h
        refine ⟨FEv.locate false :: FEv.backoff :: pre, ?_, ?_⟩
        · simp [hpre]
        · simp [hmem]

end DesktopMate

namespace DesktopMate

/-- Claim C4 counterexample: with an environment in which `find_window`
never succeeds, the loop performs its 3 attempts but calls `modify_window`
zero times — an attempt is not always "one locate followed by one
reconcile". -/
theorem claim_C4_counterexample :
    attemptCount (find_and_modify_window (fun _ => false) (fun _ => true)).2 = 3 ∧
    reconcileCount (find_and_modify_window (fun _ => false) (fun _ => true)).2 = 0 := by
  decide

/-- Claim C4 (amended): the loop performs at most 3 attempts; each attempt
is one fresh locate, followed by one reconcile exactly when the locate
succeeded; every attempt not ending in a successful reconcile is followed by
the fixed backoff delay; the loop result is true exactly when a reconcile
succeeded, and it stops immediately after the first successful reconcile
(which is then the unique success event and the last event of the run). -/
theorem claim_C4 (locOk recOk : Nat → Bool) :
    attemptCount (find_and_modify_window locOk recOk).2 ≤ max_retries ∧
    reconcileCount (find_and_modify_window locOk recOk).2 =
      (find_and_modify_window locOk recOk).2.count (FEv.locate true) ∧
    ((find_and_modify_window locOk recOk).1 = true ↔
      FEv.reconcile true ∈ (find_and_modify_window locOk recOk).2) ∧
    ((find_and_modify_window locOk recOk).2.count FEv.backoff +
      (if (find_and_modify_window locOk recOk).1 then 1 else 0) =
      attemptCount (find_and_modify_window locOk recOk).2) ∧
    ((find_and_modify_window locOk recOk).1 = true →
      ∃ pre, (find_and_modify_window locOk recOk).2 =
        pre ++ [FEv.reconcile true] ∧ FEv.reconcile true ∉ pre) :=
  ⟨famAux_attempts_le locOk recOk max_retries 0,
    famAux_reconcile_count locOk recOk max_retries 0,
    famAux_result_iff locOk recOk max_retries 0,
    famAux_backoff_count locOk recOk max_retries 0,
    famAux_stops_on_success locOk recOk max_retries 0⟩

/-- Claim C4 witness: a run whose second reconcile succeeds stops there. -/
theorem claim_C4_witness :
    attemptCount (find_and_modify_window (fun _ => true) (fun i => i == 1)).2 ≤
      max_retries ∧
    ∃ pre, (find_and_modify_window (fun _ => true) (fun i => i == 1)).2 =
      pre ++ [FEv.reconcile true] ∧ FEv.reconcile true ∉ pre :=
  ⟨(claim_C4 (fun _ => true) (fun i => i == 1)).1,
    (claim_C4 (fun _ => true) (fun i => i == 1)).2.2.2.2 (by decide)⟩

end DesktopMate
namespace DesktopMate

/-! ## Waiter lemmas -/

/-- With no matching scan inside the window, the waiter polls until the
timeout and returns false. -/
theorem waitAux_timeout (scans : Nat → List ProcEntry) (target : List Char) :
    ∀ fuel k, (∀ j, j < fuel → (scans (k + j)).any (entryMatches target) = false) →
      waitAux scans target k fuel = (false, List.replicate fuel WaitEv.poll) := by
  intro fuel
  induction fuel with
  | zero => intro k _; simp [waitAux]
  | succ n ih =>
      intro k h
      have h0 : (scans k).any (entryMatches target) = false := by
        have := h 0 (Nat.succ_pos n)
        simpa using this
      have hrest : ∀ j, j < n → (scans (k + 1 + j)).any (entryMatches target) = false := by
        intro j hj
        have := h (j + 1) (by omega)
        have harith : k + (j + 1) = k + 1 + j := by omega
        rwa [harith] at this
      simp [waitAux, h0, ih (k + 1) hrest, List.replicate_succ]

/-- The first matching scan ends the wait: the waiter returns true after
exactly that many polls and one settle sleep. -/
theorem waitAux_first_match (scans : Nat → List ProcEntry) (target : List Char) :
    ∀ fuel k j0, j0 < fuel →
      (scans (k + j0)).any (entryMatches target) = true →
      (∀ j, j < j0 → (scans (k + j)).any (entryMatches target) = false) →
      waitAux scans target k fuel =
        (true, List.replicate j0 WaitEv.poll ++ [WaitEv.settle]) := by
  intro fuel
  induction fuel with
  | zero => intro k j0 hj0; omega
  | succ n ih =>
      intro k j0 hj0 hmatch hmin
      cases j0 with
      | zero =>
          have h0 : (scans k).any (entryMatches target) = true := by simpa using hmatch
          simp [waitAux, h0]
      | succ m =>
          have h0 : (scans k).any (entryMatches target) = false := by
            have := hmin 0 (Nat.succ_pos m)
            simpa using this
          have hmatch' : (scans (k + 1 + m)).any (entryMatches target) = true := by
            have harith : k + (m + 1) = k + 1 + m := by omega
            rwa [harith] at hmatch
          have hmin' : ∀ j, j < m → (scans (k + 1 + j)).any (entryMatches target) = false := by
            intro j hj
            have := hmin (j + 1) (by omega)
            have harith : k + (j + 1) = k + 1 + j := by omega
            rwa [harith] at this
          have := ih (k + 1) m (by omega) hmatch' hmin'
          simp [waitAux, h0, this, List.replicate_succ]

end DesktopMate

namespace DesktopMate

/-- Claim C5: the waiter returns false when no matching process appears in
any scan of the 60 s window; it returns true right after the first scan
containing a match, having slept once per earlier poll and then exactly the
one settle delay; and a process that vanished between listing and inspection
is treated as not matching. -/
theorem claim_C5 (scans : Nat → List ProcEntry) (k0 : Nat) :
    ((∀ k, k < wait_fuel → (scans k).any (entryMatches process_name) = false) →
      wait_for_application scans =
        (false, List.replicate wait_fuel WaitEv.poll)) ∧
    (k0 < wait_fuel →
      (scans k0).any (entryMatches process_name) = true →
      (∀ k, k < k0 → (scans k).any (entryMatches process_name) = false) →
      wait_for_application scans =
        (true, List.replicate k0 WaitEv.poll ++ [WaitEv.settle])) ∧
    (∀ pid, entryMatches process_name (ProcEntry.gone pid) = false) := by
  refine ⟨fun h => ?_, fun hk0 hmatch hmin => ?_, fun _ => rfl⟩
  · rw [wait_for_application]
    apply waitAux_timeout
    intro j hj
    simpa using h j hj
  · rw [wait_for_application]
    apply waitAux_first_match scans process_name wait_fuel 0 k0 hk0
    · simpa using hmatch
    · intro j hj
      simpa using hmin j hj

/-- Claim C5 witness: the third scan is the first containing the target (a
vanished process is listed in earlier scans), so the waiter polls twice,
settles once and returns true. -/
theorem claim_C5_witness :
    wait_for_application
      (fun k => if k == 2 then [ProcEntry.ok 9 process_name]
        else [ProcEntry.gone 1]) =
    (true, List.replicate 2 WaitEv.poll ++ [WaitEv.settle]) :=
  (claim_C5 (fun k => if k == 2 then [ProcEntry.ok 9 process_name]
      else [ProcEntry.gone 1]) 2).2.1
    (by decide) (by decide) (by decide)

/-- Claim C8: a scan of the process table finding zero matching processes
moves the monitor from `Watching` to `Stopped`: the running flag is flipped
to false and, when a tray icon exists, its stop is signalled; the run then
performs exactly that one scan regardless of later scans, and once the flag
is false the monitor performs no scans at all and never sets the flag back
to true. -/
theorem claim_C8 (scan : List ProcEntry) (scans : List (List ProcEntry))
    (st : SupState) :
    (st.is_running = true → scan.any (entryMatches process_name) = false →
      monitorStep process_name scan st =
        ⟨false, st.icon, st.iconStopSignalled || st.icon⟩) ∧
    (st.is_running = true → scan.any (entryMatches process_name) = false →
      monitorRun process_name (scan :: scans) st =
        (⟨false, st.icon, st.iconStopSignalled || st.icon⟩, 1)) ∧
    (st.is_running = false → monitorRun process_name scans st = (st, 0)) := by
  refine ⟨fun hr hs => ?_, fun hr hs => ?_, fun hr => ?_⟩
  · simp [monitorStep, hr, hs]
  · simp [monitorRun, hr, hs]
  · cases scans with
    | nil => simp [monitorRun]
    | cons s rest => simp [monitorRun, hr]

/-- Claim C8 witness: from a watching state with an icon, a scan holding
only a vanished process stops the monitor after one scan, ignoring a later
scan in which the target is back. -/
theorem claim_C8_witness :
    monitorRun process_name
      [[ProcEntry.gone 4], [ProcEntry.ok 9 process_name]]
      ⟨true, true, false⟩ = (⟨false, true, true⟩, 1) :=
  (claim_C8 [ProcEntry.gone 4] [[ProcEntry.ok 9 process_name]]
    ⟨true, true, false⟩).2.1 rfl (by decide)

end DesktopMate

namespace DesktopMate

/-- Claim C1 counterexample: when `wait_for_application` fails, `start`
returns false without entering monitoring or tray-icon setup — it does not
continue degraded as the claim states, so no liveness monitor ever runs. -/
theorem claim_C1_counterexample :
    (start false true).1 = false ∧
    StartEv.monitorStart ∉ (start false true).2 ∧
    StartEv.trayRun ∉ (start false true).2 := by
  decide

/-- Claim C1 (amended): if `wait_for_application` times out, `start` logs
the failure and returns false immediately, performing neither the monitoring
setup nor the tray-icon loop; a failure of the window-configuration stage,
by contrast, is the one treated as degraded-but-continue: with the wait
successful, `start` always reaches monitoring and the tray icon and returns
true. -/
theorem claim_C1 (configOk : Bool) :
    start false configOk = (false, [StartEv.launch, StartEv.waitCheck false]) ∧
    StartEv.monitorStart ∉ (start false configOk).2 ∧
    StartEv.trayRun ∉ (start false configOk).2 ∧
    (start true configOk).1 = true ∧
    StartEv.monitorStart ∈ (start true configOk).2 ∧
    StartEv.trayRun ∈ (start true configOk).2 := by
  cases configOk <;> decide

end DesktopMate

namespace DesktopMate

/-! ## Restart lemmas -/

/-- The force-kill loop of `restart_application` terminates at most one
process (it breaks after the first kill). -/
theorem killFirstMatch_length_le (target : List Char) :
    ∀ procs : List ProcEntry, (killFirstMatch target procs).1.length ≤ 1 := by
  intro procs
  induction procs with
  | nil => simp [killFirstMatch]
  | cons e rest ih =>
      cases e with
      | ok pid name =>
          by_cases hm : nameMatches target name
          · simp [killFirstMatch, hm]
          · simpa [killFirstMatch, hm] using ih
      | gone pid => simpa [killFirstMatch] using ih

/-- With no matching entry, the force-kill loop kills nothing and leaves the
table unchanged. -/
theorem killFirstMatch_no_match (target : List Char) :
    ∀ procs : List ProcEntry,
      (∀ e ∈ procs, entryMatches target e = false) →
      killFirstMatch target procs = ([], procs) := by
  intro procs
  induction procs with
  | nil => intro _; rfl
  | cons e rest ih =>
      intro h
      have hrest := ih fun x hx => h x (List.mem_cons_of_mem e hx)
      cases e with
      | ok pid name =>
          have hm : nameMatches target name = false := by
            simpa [entryMatches] using
              h (ProcEntry.ok pid name) (List.mem_cons_self _ _)
          simp [killFirstMatch, hm, hrest]
      | gone pid => simp [killFirstMatch, hrest]

/-- Every kill the loop performs names a matching, inspectable entry of the
table. -/
theorem killFirstMatch_kills_match (target : List Char) :
    ∀ procs : List ProcEntry, ∀ pid,
      REv.kill pid ∈ (killFirstMatch target procs).1 →
      ∃ name, ProcEntry.ok pid name ∈ procs ∧ nameMatches target name = true := by
  intro procs
  induction procs with
  | nil => intro pid h; simp [killFirstMatch] at h
  | cons e rest ih =>
      intro pid h
      cases e with
      | ok q name =>
          by_cases hm : nameMatches target name
          · simp [killFirstMatch, hm] at h
            exact ⟨name, by simp [h], by simpa [h] using hm⟩
          · simp only [killFirstMatch, hm, if_false, Bool.false_eq_true] at h
            obtain ⟨nm, hmem, hnm⟩ := ih pid h
            exact ⟨nm, List.mem_cons_of_mem _ hmem, hnm⟩
      | gone q =>
          simp only [killFirstMatch] at h
          obtain ⟨nm, hmem, hnm⟩ := ih pid h
          exact ⟨nm, List.mem_cons_of_mem _ hmem, hnm⟩

/-- When a matching inspectable entry exists, exactly one kill happens. -/
theorem killFirstMatch_hits (target : List Char) :
    ∀ procs : List ProcEntry,
      (∃ e ∈ procs, entryMatches target e = true) →
      (killFirstMatch target procs).1.length = 1 := by
  intro procs
  induction procs with
  | nil => rintro ⟨e, he, _⟩; simp at he
  | cons e rest ih =>
      rintro ⟨x, hx, hxm⟩
      cases e with
      | ok pid name =>
          by_cases hm : nameMatches target name
          · simp [killFirstMatch, hm]
          · rcases List.mem_cons.mp hx with rfl | hx'
            · simp [entryMatches, hm] at hxm
            · simpa [killFirstMatch, hm] using ih ⟨x, hx', hxm⟩
      | gone pid =>
          rcases List.mem_cons.mp hx with rfl | hx'
          · simp [entryMatches] at hxm
          · simpa [killFirstMatch] using ih ⟨x, hx', hxm⟩

/-- The kill loop emits kill events only. -/
theorem killFirstMatch_events (target : List Char) :
    ∀ procs : List ProcEntry, ∀ e ∈ (killFirstMatch target procs).1,
      ∃ pid, e = REv.kill pid := by
  intro procs
  induction procs with
  | nil => intro e he; simp [killFirstMatch] at he
  | cons x rest ih =>
      intro e he
      cases x with
      | ok pid name =>
          by_cases hm : nameMatches target name
          · simp [killFirstMatch, hm] at he
            exact ⟨pid, he⟩
          · simp only [killFirstMatch, hm, if_false, Bool.false_eq_true] at he
            exact ih e he
      | gone pid =>
          simp only [killFirstMatch] at he
          exact ih e he

/-- Appending the final `os.execl` event makes it the last event. -/
theorem execSelf_last (l : List REv) :
    (l ++ [REv.execSelf]).getLast? = some REv.execSelf := by
  rw [List.getLast?_append_of_ne_nil l (by simp)]
  rfl

end DesktopMate

namespace DesktopMate

/-- Claim C6 counterexample: with two live target processes, the restart
action's kill loop terminates only the first one (pid 1) and lets pid 2
survive into the replacement instance — it does not force-terminate every
remaining matching process. -/
theorem claim_C6_counterexample :
    (restart_application true
      [ProcEntry.ok 1 process_name, ProcEntry.ok 2 process_name]).2 =
      [ProcEntry.ok 2 process_name] ∧
    (restart_application true
      [ProcEntry.ok 1 process_name, ProcEntry.ok 2 process_name]).2.any
      (entryMatches process_name) = true ∧
    REv.kill 2 ∉ (restart_application true
      [ProcEntry.ok 1 process_name, ProcEntry.ok 2 process_name]).1 := by
  decide

/-- Claim C6 (amended): the restart action posts a close signal to the
tracked window handle exactly when it is still valid (and first), waits the
fixed grace period, force-terminates the first remaining matching process —
at most one kill, always of a matching live entry, exactly one when such an
entry exists, none otherwise — waits again, stops the tray icon, and ends by
re-executing the supervisor process image, which discards all in-memory
state. -/
theorem claim_C6 (hwndValid : Bool) (procs : List ProcEntry) :
    (REv.postClose ∈ (restart_application hwndValid procs).1 ↔
      hwndValid = true) ∧
    (hwndValid = true →
      (restart_application hwndValid procs).1.head? = some REv.postClose) ∧
    (killFirstMatch process_name procs).1.length ≤ 1 ∧
    (∀ pid, REv.kill pid ∈ (restart_application hwndValid procs).1 →
      ∃ name, ProcEntry.ok pid name ∈ procs ∧
        nameMatches process_name name = true) ∧
    ((∃ e ∈ procs, entryMatches process_name e = true) →
      (killFirstMatch process_name procs).1.length = 1) ∧
    ((∀ e ∈ procs, entryMatches process_name e = false) →
      (restart_application hwndValid procs).2 = procs) ∧
    REv.iconStop ∈ (restart_application hwndValid procs).1 ∧
    (restart_application hwndValid procs).1.getLast? = some REv.execSelf := by
  refine ⟨?_, fun hv => ?_, killFirstMatch_length_le process_name procs,
    fun pid hp => ?_, killFirstMatch_hits process_name procs, fun hnone => ?_,
    ?_, ?_⟩
  · cases hwndValid
    · simp [restart_application, List.mem_append]
      intro hmem
      obtain ⟨pid, hpid⟩ := killFirstMatch_events process_name procs _ hmem
      simp at hpid
    · simp [restart_application, List.mem_append]
  · subst hv
    simp [restart_application]
  · apply killFirstMatch_kills_match process_name procs pid
    cases hwndValid <;>
      simpa [restart_application, List.mem_append] using hp
  · rw [restart_application]
    simp [killFirstMatch_no_match process_name procs hnone]
  · cases hwndValid <;> simp [restart_application, List.mem_append]
  · have hshape : (restart_application hwndValid procs).1 =
        ((if hwndValid then [REv.postClose] else []) ++ [REv.sleep 20] ++
          (killFirstMatch process_name procs).1 ++
          [REv.sleep 10, REv.iconStop]) ++ [REv.execSelf] := by
      rw [restart_application]
      simp [List.append_assoc]
    rw [hshape]
    exact execSelf_last _

/-- Claim C6 witness: a table holding one vanished and one live target
process; the handle is valid, so the close signal leads, and exactly the
live process is killed. -/
theorem claim_C6_witness :
    (restart_application true
      [ProcEntry.gone 5, ProcEntry.ok 9 process_name]).1.head? =
      some REv.postClose ∧
    (killFirstMatch process_name
      [ProcEntry.gone 5, ProcEntry.ok 9 process_name]).1.length = 1 :=
  ⟨(claim_C6 true [ProcEntry.gone 5, ProcEntry.ok 9 process_name]).2.1 rfl,
    (claim_C6 true [ProcEntry.gone 5, ProcEntry.ok 9 process_name]).2.2.2.2.1
      (by decide)⟩

end DesktopMate
